import Mathlib

/-!
Shallow embedding of `src/reorder.ts` (thaitype/reorder).

Order values are JavaScript numbers; we embed them as `ℚ` (the algorithm
only adds, subtracts, halves and compares, and all reference scenarios use
values where double arithmetic is exact). The JavaScript idioms that matter
are modelled explicitly:

* `a.order ?? Number.MAX_SAFE_INTEGER` — `sortKey` substitutes the sentinel
  `9007199254740991` for an absent order before comparison;
* `Array.prototype.sort` with comparator `aOrder - bOrder` — a stable sort
  ascending by `sortKey`, embedded as `List.mergeSort` (stable);
* the truthiness tests `!prevOrder` / `prevOrder && …` in
  `calculateOrderPosition` — `truthy` is `false` exactly on `undefined` and
  `0` (the two falsy values a `number | undefined` can take here, `NaN`
  aside);
* `splice(targetIndex, 0, item)` — `take t ++ item :: drop t`, which like
  JavaScript clamps an out-of-range start index to the array length;
* `new Set(orders).size !== orders.length` — `orders.dedup.length ≠
  orders.length`;
* `throw new Error(…)` — `Except String`.
-/

/-- `OrderableItem` from `reorder.ts`: an `id` and an optional `order`. -/
structure OrderableItem where
  id : String
  order : Option ℚ
deriving DecidableEq, Repr

/-- `ReorderOptions` from `reorder.ts`: all fields optional. -/
structure ReorderOptions where
  minOrderGap : Option ℚ := none
  renumberGap : Option ℚ := none
  minOrderValue : Option ℚ := none
deriving DecidableEq, Repr

/-- The merged configuration built at the top of `reorderItems` by applying
the defaults `DEFAULT_MIN_ORDER_GAP = 0.1`, `DEFAULT_RENUMBER_GAP = 10`,
`DEFAULT_MIN_ORDER_VALUE = 1` to the provided options. -/
structure Config where
  minOrderGap : ℚ
  renumberGap : ℚ
  minOrderValue : ℚ
deriving DecidableEq, Repr

/-- `const config = { minOrderGap: options.minOrderGap ?? 0.1, … }`. -/
def mergeConfig (options : ReorderOptions) : Config where
  minOrderGap := options.minOrderGap.getD (1 / 10)
  renumberGap := options.renumberGap.getD 10
  minOrderValue := options.minOrderValue.getD 1

/-- `ReorderResult` from `reorder.ts`; a change record `{ id, order }` is a
pair. -/
structure ReorderResult where
  changes : List (String × ℚ)
  orderedItems : List OrderableItem
deriving DecidableEq, Repr

/-- `Number.MAX_SAFE_INTEGER`, the sentinel substituted for an absent order
during sorting. -/
def MAX_SAFE_INTEGER : ℚ := 9007199254740991

/-- The sort key used by every comparator in `reorder.ts`:
`item.order ?? Number.MAX_SAFE_INTEGER`. -/
def sortKey (item : OrderableItem) : ℚ :=
  item.order.getD MAX_SAFE_INTEGER

/-- `sortItemsByOrder` (also the inline sort in `reorderItems` and
`needsRenumbering`): a stable sort, ascending by `sortKey`. -/
def sortItemsByOrder (items : List OrderableItem) : List OrderableItem :=
  items.mergeSort fun a b => decide (sortKey a ≤ sortKey b)

/-- JavaScript truthiness of an optional number: `undefined` and `0` are
falsy, every other value is truthy. -/
def truthy : Option ℚ → Bool
  | none => false
  | some x => x != 0

/-- `calculateOrderPosition(config, prevOrder, nextOrder)` from
`reorder.ts`, including its use of truthiness (`!prevOrder` etc.), so a
neighbor order of `0` falls into the "absent" branches exactly as in the
source. -/
def calculateOrderPosition (config : Config) (prevOrder nextOrder : Option ℚ) : ℚ :=
  if !truthy prevOrder && !truthy nextOrder then
    config.minOrderValue
  else if !truthy prevOrder && truthy nextOrder then
    max config.minOrderValue (nextOrder.getD 0 - 1)
  else if truthy prevOrder && !truthy nextOrder then
    prevOrder.getD 0 + 1
  else if truthy prevOrder && truthy nextOrder then
    max config.minOrderValue ((prevOrder.getD 0 + nextOrder.getD 0) / 2)
  else
    config.minOrderValue

/-- `hasInvalidOrderValues(items, config)` from `reorder.ts`: some defined
order below the minimum, or duplicate defined orders (the JS set-cardinality
test `new Set(orders).size !== orders.length` is `dedup`-length here). -/
def hasInvalidOrderValues (items : List OrderableItem) (config : Config) : Bool :=
  let ordersWithValues := items.filterMap (·.order)
  if ordersWithValues.any fun o => decide (o < config.minOrderValue) then
    true
  else if ordersWithValues.dedup.length ≠ ordersWithValues.length then
    true
  else
    false

/-- `needsRenumbering(items, targetIndex, newOrder, moveId, config)` from
`reorder.ts`. -/
def needsRenumbering (items : List OrderableItem) (targetIndex : ℕ) (newOrder : ℚ)
    (moveId : String) (config : Config) : Bool :=
  if items.length = 1 then
    false
  else if newOrder < config.minOrderValue then
    true
  else if hasInvalidOrderValues items config then
    true
  else
    let sortedItemsWithoutMoved :=
      sortItemsByOrder (items.filter fun item => !(item.id == moveId))
    let prevItem := if 0 < targetIndex then sortedItemsWithoutMoved[targetIndex - 1]? else none
    let nextItem :=
      if targetIndex < sortedItemsWithoutMoved.length then sortedItemsWithoutMoved[targetIndex]?
      else none
    let prevTooClose :=
      match prevItem with
      | some p =>
        match p.order with
        | some po => decide (|newOrder - po| < config.minOrderGap)
        | none => false
      | none => false
    let nextTooClose :=
      match nextItem with
      | some n =>
        match n.order with
        | some no => decide (|newOrder - no| < config.minOrderGap)
        | none => false
      | none => false
    prevTooClose || nextTooClose

/-- `renumberAllItems(items, config)` from `reorder.ts`:
`order = (index + 1) * renumberGap`. -/
def renumberAllItems (items : List OrderableItem) (config : Config) : List OrderableItem :=
  items.mapIdx fun index item =>
    { item with order := some ((index + 1 : ℚ) * config.renumberGap) }

/-- The sorted input with the moved item removed
(`[...items].sort(…).filter(item => item.id !== moveId)` in `reorderItems`). -/
def itemsWithoutMovedOf (items : List OrderableItem) (moveId : String) : List OrderableItem :=
  (sortItemsByOrder items).filter fun item => !(item.id == moveId)

/-- The new order computed for the moved item inside `reorderItems`:
resolve the previous/next neighbor at `targetIndex` in the sorted,
moved-item-free list and call `calculateOrderPosition` on
`prevItem?.order` / `nextItem?.order`. -/
def computedNewOrder (items : List OrderableItem) (moveId : String) (targetIndex : ℕ)
    (config : Config) : ℚ :=
  let itemsWithoutMoved := itemsWithoutMovedOf items moveId
  let prevItem := if 0 < targetIndex then itemsWithoutMoved[targetIndex - 1]? else none
  let nextItem :=
    if targetIndex < itemsWithoutMoved.length then itemsWithoutMoved[targetIndex]? else none
  calculateOrderPosition config (prevItem.bind (·.order)) (nextItem.bind (·.order))

/-- `reorderItems(items, moveId, targetIndex, options)` from `reorder.ts`.
`targetIndex` is an integer (the validation compares it against `0` and
`items.length`); after validation it is a valid index and is used as such.
The four `throw` statements become `Except.error`. -/
def reorderItems (items : List OrderableItem) (moveId : String) (targetIndex : ℤ)
    (options : ReorderOptions := {}) : Except String ReorderResult :=
  let config := mergeConfig options
  if items.length = 0 then
    .error "Items array cannot be empty"
  else if moveId = "" then
    .error "moveId is required"
  else if targetIndex < 0 ∨ (items.length : ℤ) ≤ targetIndex then
    .error ("targetIndex " ++ toString targetIndex ++ " is out of bounds for array of length "
      ++ toString items.length)
  else
    match items.find? fun item => item.id == moveId with
    | none => .error ("Item with id " ++ moveId ++ " not found")
    | some moveItem =>
      let t := targetIndex.toNat
      let itemsWithoutMoved := itemsWithoutMovedOf items moveId
      let newOrder := computedNewOrder items moveId t config
      let newSortedItems :=
        itemsWithoutMoved.take t ++ { moveItem with order := some newOrder }
          :: itemsWithoutMoved.drop t
      if needsRenumbering items t newOrder moveId config then
        let renumberedItems := renumberAllItems newSortedItems config
        .ok
          { changes := renumberedItems.filterMap fun item => item.order.map fun o => (item.id, o)
            orderedItems := renumberedItems }
      else
        .ok { changes := [(moveId, newOrder)], orderedItems := newSortedItems }

/-! ## General facts about the sorting comparator -/

theorem sortLe_trans (a b c : OrderableItem) :
    decide (sortKey a ≤ sortKey b) = true → decide (sortKey b ≤ sortKey c) = true →
    decide (sortKey a ≤ sortKey c) = true := by
  simp only [decide_eq_true_eq]
  exact le_trans

theorem sortLe_total (a b : OrderableItem) :
    (decide (sortKey a ≤ sortKey b) || decide (sortKey b ≤ sortKey a)) = true := by
  simp only [Bool.or_eq_true, decide_eq_true_eq]
  exact le_total _ _

theorem sortItemsByOrder_perm (l : List OrderableItem) : (sortItemsByOrder l).Perm l :=
  List.mergeSort_perm l _

theorem sortItemsByOrder_of_sorted {l : List OrderableItem}
    (h : List.Pairwise (fun a b => sortKey a ≤ sortKey b) l) : sortItemsByOrder l = l := by
  refine List.mergeSort_of_sorted (h.imp ?_)
  intro a b hab
  simpa using hab

theorem sortItemsByOrder_sorted (l : List OrderableItem) :
    List.Pairwise (fun a b => sortKey a ≤ sortKey b) (sortItemsByOrder l) := by
  have h := List.sorted_mergeSort sortLe_trans sortLe_total l
  exact h.imp (by simp)

theorem sortItemsByOrder_stable (l : List OrderableItem) (q : ℚ) :
    (sortItemsByOrder l).filter (fun i => decide (sortKey i = q)) =
      l.filter (fun i => decide (sortKey i = q)) := by
  have hpw : List.Pairwise
      (fun a b => (decide (sortKey a ≤ sortKey b)) = true)
      (l.filter fun i => decide (sortKey i = q)) := by
    apply List.pairwise_of_forall_mem_list
    intro a ha b hb
    have ha' := List.of_mem_filter ha
    have hb' := List.of_mem_filter hb
    simp only [decide_eq_true_eq] at ha' hb' ⊢
    rw [ha', hb']
  have hsub : (l.filter fun i => decide (sortKey i = q)).Sublist (sortItemsByOrder l) :=
    List.sublist_mergeSort sortLe_trans sortLe_total hpw (List.filter_sublist l)
  have hsub' := hsub.filter (fun i => decide (sortKey i = q))
  rw [List.filter_filter] at hsub'
  have hlen : ((sortItemsByOrder l).filter fun i => decide (sortKey i = q)).length =
      (l.filter fun i => decide (sortKey i = q)).length :=
    ((sortItemsByOrder_perm l).filter _).length_eq
  refine (List.Sublist.eq_of_length ?_ (by rw [hlen])).symm
  simpa using hsub'

/-! ## C3: midpoint rule of the Position Calculator -/

/-- C3, as stated, is false: `calculateOrderPosition` tests its neighbor
values for JavaScript truthiness, so a present neighbor value of `0` is
treated as absent.  With the default configuration, previous = 0 and
next = 100, the code returns `max(1, 100 - 1) = 99`, not the claimed
`max(1, (0 + 100) / 2) = 50`. -/
theorem C3_counterexample :
    calculateOrderPosition (mergeConfig {}) (some 0) (some 100) ≠
      max (mergeConfig {}).minOrderValue ((0 + 100) / 2) := by
  simp only [calculateOrderPosition, truthy, mergeConfig, Option.getD]
  norm_num

/-- C3 (amended): for every configuration, whenever both neighbor values
are present and nonzero (hence truthy), `calculateOrderPosition` returns
`max(minOrderValue, (previous + next) / 2)`; a present neighbor value of
`0` is instead treated as if the neighbor were absent. -/
theorem C3_both_present_nonzero_midpoint (config : Config) (a b : ℚ) (ha : a ≠ 0) (hb : b ≠ 0) :
    calculateOrderPosition config (some a) (some b) =
      max config.minOrderValue ((a + b) / 2) := by
  simp [calculateOrderPosition, truthy, bne, ha, hb]

/-- Witness for C3 (amended) at previous = 100, next = 300 with default
configuration: the midpoint 200 is returned. -/
theorem C3_witness :
    calculateOrderPosition (mergeConfig {}) (some 100) (some 300) =
      max (mergeConfig {}).minOrderValue ((100 + 300) / 2) :=
  C3_both_present_nonzero_midpoint (mergeConfig {}) 100 300 (by norm_num) (by norm_num)

/-! ## C9: the Sequencer `sortItemsByOrder` -/

/-- C9, as stated, is false: `sortItemsByOrder` substitutes the sentinel
`Number.MAX_SAFE_INTEGER` for an absent order, so an entity with the
defined order `9007199254740992` (sentinel + 1) compares *greater* than an
absent-order entity and is sorted after it.  On
`[{A, absent}, {B, 9007199254740992}]` the sort returns the list unchanged,
leaving the absent-order entity `A` before the defined-order entity `B`. -/
theorem C9_counterexample :
    sortItemsByOrder [⟨"A", none⟩, ⟨"B", some 9007199254740992⟩] =
        [⟨"A", none⟩, ⟨"B", some 9007199254740992⟩] ∧
      ¬ List.Pairwise (fun a b => a.order = none → b.order = none)
        (sortItemsByOrder [⟨"A", none⟩, ⟨"B", some 9007199254740992⟩]) := by
  have h : sortItemsByOrder [⟨"A", none⟩, ⟨"B", some 9007199254740992⟩] =
      [⟨"A", none⟩, ⟨"B", some 9007199254740992⟩] :=
    sortItemsByOrder_of_sorted (by decide)
  refine ⟨h, ?_⟩
  rw [h]
  decide

/-- C9 (amended): `sortItemsByOrder` returns a stable ascending sort of its
input by the sentinel-substituted key `order ?? MAX_SAFE_INTEGER` — a
permutation of the input, ascending in that key, with equal-key runs (in
particular all absent-order entities, and ties) in their relative input
order — and an absent-order entity is placed after every entity whose
defined order is below `MAX_SAFE_INTEGER` (not after *any* defined order:
defined orders `≥ MAX_SAFE_INTEGER` tie with or exceed the sentinel).  The
Lean embedding is pure, so input immutability is inherent. -/
theorem C9_sortItemsByOrder_stable_sentinel_sort (l : List OrderableItem) :
    (sortItemsByOrder l).Perm l ∧
      List.Pairwise (fun a b => sortKey a ≤ sortKey b) (sortItemsByOrder l) ∧
      List.Pairwise (fun a b => a.order = none → b.order = none ∨ MAX_SAFE_INTEGER ≤ sortKey b)
        (sortItemsByOrder l) ∧
      ∀ q : ℚ, (sortItemsByOrder l).filter (fun i => decide (sortKey i = q)) =
        l.filter (fun i => decide (sortKey i = q)) := by
  refine ⟨sortItemsByOrder_perm l, sortItemsByOrder_sorted l, ?_,
    fun q => sortItemsByOrder_stable l q⟩
  refine (sortItemsByOrder_sorted l).imp ?_
  intro a b hab ha
  cases hb : b.order with
  | none => exact Or.inl rfl
  | some v =>
    refine Or.inr ?_
    have : sortKey a = MAX_SAFE_INTEGER := by simp [sortKey, ha]
    calc MAX_SAFE_INTEGER = sortKey a := this.symm
      _ ≤ sortKey b := hab

/-! ## C4: validation errors, and only validation errors -/

/-- C4: `reorderItems` fails (with a descriptive error, and produces no
result) exactly when one of the four validation conditions holds — empty
entity set, empty `moveId`, `targetIndex` out of `[0, length)`, or no
entity with id `moveId`; on every other input (duplicate or sub-minimum
orders included) it returns a complete result. -/
theorem C4_error_iff_validation_fails (items : List OrderableItem) (moveId : String)
    (targetIndex : ℤ) (options : ReorderOptions) :
    (∃ msg, reorderItems items moveId targetIndex options = .error msg) ↔
      (items = [] ∨ moveId = "" ∨ targetIndex < 0 ∨ (items.length : ℤ) ≤ targetIndex ∨
        ∀ i ∈ items, i.id ≠ moveId) := by
  by_cases h1 : items.length = 0
  · simp [reorderItems, h1, List.length_eq_zero.mp h1]
  by_cases h2 : moveId = ""
  · simp [reorderItems, h1, h2]
  by_cases h3 : targetIndex < 0 ∨ (items.length : ℤ) ≤ targetIndex
  · refine iff_of_true ⟨"targetIndex " ++ toString targetIndex
      ++ " is out of bounds for array of length " ++ toString items.length, ?_⟩ (by tauto)
    simp [reorderItems, h1, h2, h3]
  cases hfind : items.find? fun item => item.id == moveId with
  | none =>
    have hall : ∀ i ∈ items, i.id ≠ moveId := by
      intro i hi
      have := List.find?_eq_none.mp hfind i hi
      simpa using this
    refine iff_of_true ⟨"Item with id " ++ moveId ++ " not found", ?_⟩ (by tauto)
    simp [reorderItems, h1, h2, h3, hfind]
  | some m =>
    have hid : m.id = moveId := by simpa using List.find?_some hfind
    have hmem : m ∈ items := List.mem_of_find?_eq_some hfind
    constructor
    · rintro ⟨msg, hmsg⟩
      exfalso
      simp only [reorderItems, h1, if_false, h2, if_false, h3, if_false, hfind] at hmsg
      split at hmsg <;> simp_all
    · intro hrhs
      exfalso
      rcases hrhs with h | h | h | h | h
      · exact h1 (by simp [h])
      · exact h2 h
      · exact h3 (Or.inl h)
      · exact h3 (Or.inr h)
      · exact h m hmem hid

/-! ## C8: single-entity sets never renumber -/

/-- C8: for a single-entity set, every in-bounds `targetIndex` (necessarily
`0`) and every configuration, `reorderItems` never takes the renumber path,
whatever the entity's stored order (sub-minimum included): it returns
exactly one change record, assigning `minOrderValue` to that entity.
(The id must be non-empty and be the `moveId`, or validation rejects the
call before any path is taken.) -/
theorem C8_single_item_never_renumbers (item : OrderableItem) (targetIndex : ℤ)
    (options : ReorderOptions) (hid : item.id ≠ "") (h0 : 0 ≤ targetIndex)
    (h1 : targetIndex < 1) :
    reorderItems [item] item.id targetIndex options =
      .ok { changes := [(item.id, (mergeConfig options).minOrderValue)],
            orderedItems := [{ item with order := some (mergeConfig options).minOrderValue }] } := by
  have ht : targetIndex = 0 := by omega
  subst ht
  have hsort : sortItemsByOrder [item] = [item] := sortItemsByOrder_of_sorted (by simp)
  simp [reorderItems, hid, computedNewOrder, itemsWithoutMovedOf, hsort, needsRenumbering,
    calculateOrderPosition, truthy]

/-- Witness for C8: a lone item whose stored order `-5` is far below the
default minimum still takes the single-move path and gets order `1`. -/
theorem C8_witness :
    reorderItems [⟨"A", some (-5)⟩] "A" 0 {} =
      .ok { changes := [("A", 1)], orderedItems := [⟨"A", some 1⟩] } := by
  have h := C8_single_item_never_renumbers ⟨"A", some (-5)⟩ 0 {} (by decide) (by decide) (by decide)
  simpa [mergeConfig] using h

/-! ## C1: the output is a permutation of the input by id -/

open List

theorem renumberAllItems_map_id (l : List OrderableItem) (config : Config) :
    (renumberAllItems l config).map (·.id) = l.map (·.id) := by
  apply List.ext_getElem
  · simp [renumberAllItems]
  · intro i h1 h2
    simp [renumberAllItems]

theorem cons_filter_ne_perm (v : String) :
    ∀ l : List OrderableItem, (l.map (·.id)).Nodup → (∃ x ∈ l, x.id = v) →
      (v :: (l.filter fun i => !(i.id == v)).map (·.id)).Perm (l.map (·.id))
  | [], _, hex => by simp at hex
  | x :: xs, hnodup, hex => by
    rw [List.map_cons, List.nodup_cons] at hnodup
    by_cases hx : x.id = v
    · have hxs : ∀ y ∈ xs, ¬(y.id = v) := by
        intro y hy hyv
        exact hnodup.1 (by rw [hx, ← hyv]; exact List.mem_map_of_mem _ hy)
      have hfilter : xs.filter (fun i => !(i.id == v)) = xs :=
        List.filter_eq_self.mpr fun a ha => by simpa using hxs a ha
      simp [hx, hfilter]
    · have hex' : ∃ y ∈ xs, y.id = v := by
        rcases hex with ⟨y, hy, hyv⟩
        rcases List.mem_cons.mp hy with rfl | hy'
        · exact absurd hyv hx
        · exact ⟨y, hy', hyv⟩
      have ih := cons_filter_ne_perm v xs hnodup.2 hex'
      have hcond : (!(x.id == v)) = true := by simpa using hx
      have hstep : (x :: xs).filter (fun i => !(i.id == v)) =
          x :: xs.filter (fun i => !(i.id == v)) := by
        rw [List.filter_cons]
        simp [hcond]
      rw [hstep, List.map_cons, List.map_cons]
      calc v :: x.id :: (xs.filter fun i => !(i.id == v)).map (·.id)
          ~ x.id :: v :: (xs.filter fun i => !(i.id == v)).map (·.id) := List.Perm.swap _ _ _
        _ ~ x.id :: xs.map (·.id) := ih.cons _

theorem spliced_ids_perm (items : List OrderableItem) (moveId : String) (t : ℕ)
    (m : OrderableItem) (hm : m.id = moveId) (hnodup : (items.map (·.id)).Nodup)
    (hex : ∃ x ∈ items, x.id = moveId) :
    (((itemsWithoutMovedOf items moveId).take t ++
        m :: (itemsWithoutMovedOf items moveId).drop t).map (·.id)).Perm
      (items.map (·.id)) := by
  set L := itemsWithoutMovedOf items moveId with hL
  calc (L.take t ++ m :: L.drop t).map (·.id)
      = (L.take t).map (·.id) ++ m.id :: (L.drop t).map (·.id) := by simp
    _ ~ m.id :: ((L.take t).map (·.id) ++ (L.drop t).map (·.id)) := List.perm_middle
    _ = m.id :: L.map (·.id) := by rw [← List.map_append, List.take_append_drop]
    _ ~ moveId :: (items.filter fun i => !(i.id == moveId)).map (·.id) := by
        rw [hm, hL, itemsWithoutMovedOf]
        refine List.Perm.cons _ (List.Perm.map _ (List.Perm.filter _ ?_))
        exact sortItemsByOrder_perm items
    _ ~ items.map (·.id) := cons_filter_ne_perm moveId items hnodup hex

/-- C1: on every non-error invocation whose input ids are pairwise
distinct, the returned `orderedItems` is a permutation of the input entity
set by id — same count, same id multiset; entities carry no field besides
`id` and `order`, and ids are never rewritten on either path. -/
theorem C1_orderedItems_perm_of_nodup (items : List OrderableItem) (moveId : String)
    (targetIndex : ℤ) (options : ReorderOptions) (res : ReorderResult)
    (hnodup : (items.map (·.id)).Nodup)
    (hok : reorderItems items moveId targetIndex options = .ok res) :
    (res.orderedItems.map (·.id)).Perm (items.map (·.id)) := by
  unfold reorderItems at hok
  split at hok
  · simp at hok
  split at hok
  · simp at hok
  split at hok
  · simp at hok
  split at hok
  · simp at hok
  rename_i moveItem hfind
  have hmid : moveItem.id = moveId := by simpa using List.find?_some hfind
  have hmem : moveItem ∈ items := List.mem_of_find?_eq_some hfind
  have hex : ∃ x ∈ items, x.id = moveId := ⟨moveItem, hmem, hmid⟩
  dsimp only at hok
  split at hok
  · rw [Except.ok.injEq] at hok
    subst hok
    simp only [renumberAllItems_map_id]
    exact spliced_ids_perm items moveId targetIndex.toNat _ hmid hnodup hex
  · rw [Except.ok.injEq] at hok
    subst hok
    exact spliced_ids_perm items moveId targetIndex.toNat _ hmid hnodup hex

/-- Evaluation of a plain two-item move with the default configuration:
move `B` before `A` in `[{A, 2}, {B, 5}]`; the computed order is
`max(1, 2 - 1) = 1` and no renumbering triggers. -/
theorem reorder_eval_simple :
    reorderItems [⟨"A", some 2⟩, ⟨"B", some 5⟩] "B" 0 {} =
      .ok { changes := [("B", 1)], orderedItems := [⟨"B", some 1⟩, ⟨"A", some 2⟩] } := by
  have hs1 : sortItemsByOrder [(⟨"A", some 2⟩ : OrderableItem), ⟨"B", some 5⟩] =
      [⟨"A", some 2⟩, ⟨"B", some 5⟩] := sortItemsByOrder_of_sorted (by decide)
  have hs2 : sortItemsByOrder [(⟨"A", some 2⟩ : OrderableItem)] = [⟨"A", some 2⟩] :=
    sortItemsByOrder_of_sorted (by decide)
  have hb1 : (("A" : String) == "B") = false := by decide
  have hb2 : (("B" : String) == "B") = true := by decide
  have hgap : (|(1 : ℚ) - 2| < 1 / 10) = False := by norm_num
  norm_num +decide [reorderItems, computedNewOrder, itemsWithoutMovedOf, needsRenumbering,
    hasInvalidOrderValues, calculateOrderPosition, truthy, mergeConfig, hs1, hs2, hb1, hb2,
    hgap, List.find?, List.filter]

/-- Witness for C1 at `[{A, 2}, {B, 5}]`, moving `B` to the front: the
output ids `[B, A]` are a permutation of the input ids `[A, B]`. -/
theorem C1_witness :
    (([(⟨"B", some 1⟩ : OrderableItem), ⟨"A", some 2⟩].map (·.id)).Perm
      ([(⟨"A", some 2⟩ : OrderableItem), ⟨"B", some 5⟩].map (·.id))) :=
  C1_orderedItems_perm_of_nodup [⟨"A", some 2⟩, ⟨"B", some 5⟩] "B" 0 {}
    { changes := [("B", 1)], orderedItems := [⟨"B", some 1⟩, ⟨"A", some 2⟩] }
    (by decide) reorder_eval_simple

/-! ## C10: an all-absent collection never renumbers -/

theorem mem_itemsWithoutMovedOf {items : List OrderableItem} {moveId : String}
    {x : OrderableItem} (hx : x ∈ itemsWithoutMovedOf items moveId) : x ∈ items :=
  (sortItemsByOrder_perm items).subset (List.mem_of_mem_filter hx)

theorem mem_sorted_filter {items : List OrderableItem} {moveId : String} {x : OrderableItem}
    (hx : x ∈ sortItemsByOrder (items.filter fun item => !(item.id == moveId))) : x ∈ items :=
  List.mem_of_mem_filter ((sortItemsByOrder_perm _).subset hx)

/-- C10: when every entity's position is absent and there are at least two
entities, `reorderItems` with any in-bounds `targetIndex` does not
renumber: it returns the single change record `(moveId, minOrderValue)`,
splices the moved entity (now carrying `minOrderValue`) at `targetIndex`,
and every other entity keeps its absent position. -/
theorem C10_all_absent_single_change (items : List OrderableItem) (moveId : String)
    (targetIndex : ℤ) (options : ReorderOptions) (moveItem : OrderableItem)
    (habs : ∀ i ∈ items, i.order = none)
    (hlen : 2 ≤ items.length)
    (hid : moveId ≠ "")
    (hfind : items.find? (fun item => item.id == moveId) = some moveItem)
    (h0 : 0 ≤ targetIndex) (h1 : targetIndex < items.length) :
    reorderItems items moveId targetIndex options =
        .ok { changes := [(moveId, (mergeConfig options).minOrderValue)],
              orderedItems :=
                (itemsWithoutMovedOf items moveId).take targetIndex.toNat ++
                  { moveItem with order := some (mergeConfig options).minOrderValue }
                    :: (itemsWithoutMovedOf items moveId).drop targetIndex.toNat } ∧
      ∀ x ∈ itemsWithoutMovedOf items moveId, x.order = none := by
  have habs' : ∀ x ∈ itemsWithoutMovedOf items moveId, x.order = none :=
    fun x hx => habs x (mem_itemsWithoutMovedOf hx)
  have hnew : computedNewOrder items moveId targetIndex.toNat (mergeConfig options) =
      (mergeConfig options).minOrderValue := by
    unfold computedNewOrder
    dsimp only
    have hprev : ∀ o : Option OrderableItem,
        (∀ p, o = some p → p ∈ itemsWithoutMovedOf items moveId) →
        o.bind (·.order) = none := by
      intro o ho
      cases o with
      | none => rfl
      | some p => simpa using habs' p (ho p rfl)
    rw [hprev _ ?hp, hprev _ ?hn]
    · rfl
    case hp =>
      intro p hp
      split at hp
      · exact List.getElem?_mem hp
      · simp at hp
    case hn =>
      intro p hp
      split at hp
      · exact List.getElem?_mem hp
      · simp at hp
  have hinv : hasInvalidOrderValues items (mergeConfig options) = false := by
    unfold hasInvalidOrderValues
    have hfm : items.filterMap (·.order) = [] := List.filterMap_eq_nil_iff.mpr habs
    simp [hfm]
  have hren : needsRenumbering items targetIndex.toNat
      ((mergeConfig options).minOrderValue) moveId (mergeConfig options) = false := by
    unfold needsRenumbering
    rw [if_neg (by omega), if_neg (lt_irrefl _), hinv]
    simp only [Bool.false_eq_true, if_false]
    have hgap : ∀ o : Option OrderableItem,
        (∀ p, o = some p →
          p ∈ sortItemsByOrder (items.filter fun item => !(item.id == moveId))) →
        (match o with
          | some p =>
            match p.order with
            | some po =>
              decide (|(mergeConfig options).minOrderValue - po| < (mergeConfig options).minOrderGap)
            | none => false
          | none => false) = false := by
      intro o ho
      cases o with
      | none => rfl
      | some p =>
        have : p.order = none := habs p (mem_sorted_filter (ho p rfl))
        simp [this]
    rw [hgap _ ?gp, hgap _ ?gn]
    · rfl
    case gp =>
      intro p hp
      split at hp
      · exact List.getElem?_mem hp
      · simp at hp
    case gn =>
      intro p hp
      split at hp
      · exact List.getElem?_mem hp
      · simp at hp
  refine ⟨?_, habs'⟩
  unfold reorderItems
  rw [if_neg (by omega), if_neg hid, if_neg (by omega), hfind]
  dsimp only
  rw [hnew, hren]
  simp

/-- Witness for C10: two entities, both without positions; moving `B` to
index 1 yields the single change `("B", 1)` and leaves `A` without a
position. -/
theorem C10_witness :
    reorderItems [⟨"A", none⟩, ⟨"B", none⟩] "B" 1 {} =
      .ok { changes := [("B", 1)], orderedItems := [⟨"A", none⟩, ⟨"B", some 1⟩] } := by
  have h := C10_all_absent_single_change [⟨"A", none⟩, ⟨"B", none⟩] "B" 1 {} ⟨"B", none⟩
    (by decide) (by decide) (by decide) (by decide) (by decide) (by decide)
  have hs : sortItemsByOrder [(⟨"A", none⟩ : OrderableItem), ⟨"B", none⟩] =
      [⟨"A", none⟩, ⟨"B", none⟩] := sortItemsByOrder_of_sorted (by decide)
  rw [h.1]
  simp +decide [itemsWithoutMovedOf, hs, mergeConfig]

/-! ## C6 and C7: the shape of the `changes` list -/

/-- Moving `B` to its own sorted index 1 in `[{A,100},{B,200},{C,300}]`:
the midpoint of its neighbors is its own current order 200, yet a change
record is still emitted. -/
theorem reorder_eval_self_move :
    reorderItems [⟨"A", some 100⟩, ⟨"B", some 200⟩, ⟨"C", some 300⟩] "B" 1 {} =
      .ok { changes := [("B", 200)],
            orderedItems := [⟨"A", some 100⟩, ⟨"B", some 200⟩, ⟨"C", some 300⟩] } := by
  have hs1 : sortItemsByOrder
      [(⟨"A", some 100⟩ : OrderableItem), ⟨"B", some 200⟩, ⟨"C", some 300⟩] =
      [⟨"A", some 100⟩, ⟨"B", some 200⟩, ⟨"C", some 300⟩] :=
    sortItemsByOrder_of_sorted (by decide)
  have hs2 : sortItemsByOrder [(⟨"A", some 100⟩ : OrderableItem), ⟨"C", some 300⟩] =
      [⟨"A", some 100⟩, ⟨"C", some 300⟩] := sortItemsByOrder_of_sorted (by decide)
  have hb1 : (("A" : String) == "B") = false := by decide
  have hb2 : (("B" : String) == "B") = true := by decide
  have hb3 : (("C" : String) == "B") = false := by decide
  have hmax : max (1 : ℚ) ((100 + 300) / 2) = 200 := by norm_num [max_def]
  have hg1 : (|(200 : ℚ) - 100| < 1 / 10) = False := by norm_num
  have hg2 : (|(200 : ℚ) - 300| < 1 / 10) = False := by norm_num
  norm_num +decide [reorderItems, computedNewOrder, itemsWithoutMovedOf, needsRenumbering,
    hasInvalidOrderValues, calculateOrderPosition, truthy, mergeConfig, hs1, hs2,
    hb1, hb2, hb3, hmax, hg1, hg2, List.find?, List.filter]

/-- C6 is false as stated: on the single-move path the moved entity's
change record is emitted unconditionally.  Moving `B` to index 1 in
`[{A,100},{B,200},{C,300}]` recomputes `B`'s position as the midpoint 200 —
equal to its original position — and `changes` still contains
`("B", 200)`. -/
theorem C6_counterexample :
    reorderItems [⟨"A", some 100⟩, ⟨"B", some 200⟩, ⟨"C", some 300⟩] "B" 1 {} =
        .ok { changes := [("B", 200)],
              orderedItems := [⟨"A", some 100⟩, ⟨"B", some 200⟩, ⟨"C", some 300⟩] } ∧
      (⟨"B", some 200⟩ : OrderableItem) ∈
        [(⟨"A", some 100⟩ : OrderableItem), ⟨"B", some 200⟩, ⟨"C", some 300⟩] :=
  ⟨reorder_eval_self_move, by decide⟩

/-- C6 (amended): on the single-move (non-renumber) path the `changes`
list is exactly one record, for the moved entity, carrying its freshly
computed position; records for other entities never appear there, but the
moved entity's record is emitted even when the computed position equals
its original position. -/
theorem C6_single_move_changes_only_moved (items : List OrderableItem) (moveId : String)
    (targetIndex : ℤ) (options : ReorderOptions) (res : ReorderResult)
    (hok : reorderItems items moveId targetIndex options = .ok res)
    (hnr : needsRenumbering items targetIndex.toNat
      (computedNewOrder items moveId targetIndex.toNat (mergeConfig options)) moveId
      (mergeConfig options) = false) :
    res.changes =
      [(moveId, computedNewOrder items moveId targetIndex.toNat (mergeConfig options))] := by
  unfold reorderItems at hok
  split at hok
  · simp at hok
  split at hok
  · simp at hok
  split at hok
  · simp at hok
  split at hok
  · simp at hok
  dsimp only at hok
  rw [hnr] at hok
  simp only [Bool.false_eq_true, if_false, Except.ok.injEq] at hok
  subst hok
  rfl

theorem newOrder_eval_simple :
    computedNewOrder [⟨"A", some 2⟩, ⟨"B", some 5⟩] "B" 0 (mergeConfig {}) = 1 := by
  have hs1 : sortItemsByOrder [(⟨"A", some 2⟩ : OrderableItem), ⟨"B", some 5⟩] =
      [⟨"A", some 2⟩, ⟨"B", some 5⟩] := sortItemsByOrder_of_sorted (by decide)
  have hb1 : (("A" : String) == "B") = false := by decide
  have hb2 : (("B" : String) == "B") = true := by decide
  norm_num +decide [computedNewOrder, itemsWithoutMovedOf, calculateOrderPosition, truthy,
    mergeConfig, hs1, hb1, hb2, List.filter]

theorem needsRenumbering_eval_simple :
    needsRenumbering [⟨"A", some 2⟩, ⟨"B", some 5⟩] 0 1 "B" (mergeConfig {}) = false := by
  have hs2 : sortItemsByOrder [(⟨"A", some 2⟩ : OrderableItem)] = [⟨"A", some 2⟩] :=
    sortItemsByOrder_of_sorted (by decide)
  have hb1 : (("A" : String) == "B") = false := by decide
  have hb2 : (("B" : String) == "B") = true := by decide
  have hg1 : (|(1 : ℚ) - 2| < 1 / 10) = False := by norm_num
  norm_num +decide [needsRenumbering, hasInvalidOrderValues, mergeConfig, hs2, hb1, hb2,
    hg1, List.filter]

/-- Witness for C6 (amended): the `[{A,2},{B,5}]` move of `B` to the front
takes the single-move path and its `changes` list is exactly the moved
entity's record with the computed position. -/
theorem C6_witness :
    ({ changes := [("B", 1)], orderedItems := [⟨"B", some 1⟩, ⟨"A", some 2⟩] }
        : ReorderResult).changes =
      [("B", computedNewOrder [⟨"A", some 2⟩, ⟨"B", some 5⟩] "B" (0 : ℤ).toNat
        (mergeConfig {}))] := by
  refine C6_single_move_changes_only_moved [⟨"A", some 2⟩, ⟨"B", some 5⟩] "B" 0 {} _
    reorder_eval_simple ?_
  rw [show ((0 : ℤ).toNat) = 0 from rfl, newOrder_eval_simple]
  exact needsRenumbering_eval_simple

theorem renumberAllItems_order_some (l : List OrderableItem) (config : Config) :
    ∀ x ∈ renumberAllItems l config, ∃ v, x.order = some v := by
  intro x hx
  rw [renumberAllItems, List.mapIdx_eq_enum_map] at hx
  obtain ⟨p, _, rfl⟩ := List.mem_map.mp hx
  exact ⟨_, rfl⟩

theorem renumber_filterMap_ne_nil (l : List OrderableItem) (config : Config) (hl : l ≠ []) :
    (renumberAllItems l config).filterMap
      (fun item => item.order.map fun o => (item.id, o)) ≠ [] := by
  intro hnil
  have hlen : (renumberAllItems l config).length = l.length := by
    rw [renumberAllItems, List.mapIdx_eq_enum_map, List.length_map, List.enum_length]
  have hne : renumberAllItems l config ≠ [] := by
    intro h
    apply hl
    have hz := congrArg List.length h
    rw [hlen] at hz
    exact List.length_eq_zero.mp hz
  obtain ⟨y, hy⟩ := List.exists_mem_of_ne_nil _ hne
  obtain ⟨v, hv⟩ := renumberAllItems_order_some _ _ y hy
  have h := List.filterMap_eq_nil_iff.mp hnil y hy
  rw [hv] at h
  simp at h

/-- C7 is false as stated: if the move itself is a no-op (target index =
current sorted index) but the collection is corrupt, the renumber path
runs and emits one change per entity.  In `[{A,1},{B,1}]` (duplicate
orders), entity `A` already sits at sorted index 0; moving `A` to index 0
returns two change records, not exactly one. -/
theorem C7_counterexample :
    reorderItems [⟨"A", some 1⟩, ⟨"B", some 1⟩] "A" 0 {} =
        .ok { changes := [("A", 10), ("B", 20)],
              orderedItems := [⟨"A", some 10⟩, ⟨"B", some 20⟩] } ∧
      (sortItemsByOrder [⟨"A", some 1⟩, ⟨"B", some 1⟩])[0]? = some ⟨"A", some 1⟩ := by
  have hs1 : sortItemsByOrder [(⟨"A", some 1⟩ : OrderableItem), ⟨"B", some 1⟩] =
      [⟨"A", some 1⟩, ⟨"B", some 1⟩] := sortItemsByOrder_of_sorted (by decide)
  have hb1 : (("A" : String) == "A") = true := by decide
  have hb2 : (("B" : String) == "A") = false := by decide
  have hmax : max (1 : ℚ) (1 - 1) = 1 := by norm_num [max_def]
  have hren3 : renumberAllItems [⟨"A", some 1⟩, ⟨"B", some 1⟩]
      { minOrderGap := 1 / 10, renumberGap := 10, minOrderValue := 1 } =
      [⟨"A", some 10⟩, ⟨"B", some 20⟩] := by
    rw [renumberAllItems, List.mapIdx_eq_enum_map]
    norm_num [List.enum, List.enumFrom]
  refine ⟨?_, by rw [hs1]; rfl⟩
  norm_num +decide [reorderItems, computedNewOrder, itemsWithoutMovedOf, needsRenumbering,
    hasInvalidOrderValues, calculateOrderPosition, truthy, mergeConfig,
    hs1, hb1, hb2, hmax, hren3, List.find?, List.filter]

/-- C7 (amended): on every non-error invocation the returned `changes`
list is non-empty — the single-move path emits the moved entity's record
unconditionally, and the renumber path emits one record per entity of the
(non-empty) final sequence.  "Exactly one record" holds only when
renumbering is not triggered (see the C6 theorem). -/
theorem C7_changes_never_empty (items : List OrderableItem) (moveId : String)
    (targetIndex : ℤ) (options : ReorderOptions) (res : ReorderResult)
    (hok : reorderItems items moveId targetIndex options = .ok res) :
    res.changes ≠ [] := by
  unfold reorderItems at hok
  split at hok
  · simp at hok
  split at hok
  · simp at hok
  split at hok
  · simp at hok
  split at hok
  · simp at hok
  dsimp only at hok
  split at hok
  · rw [Except.ok.injEq] at hok
    subst hok
    exact renumber_filterMap_ne_nil _ _ (by simp)
  · rw [Except.ok.injEq] at hok
    subst hok
    simp

/-- Witness for C7 (amended): the `[{A,2},{B,5}]` move of `B` returns a
non-empty change list. -/
theorem C7_witness :
    ({ changes := [("B", 1)], orderedItems := [⟨"B", some 1⟩, ⟨"A", some 2⟩] }
        : ReorderResult).changes ≠ [] :=
  C7_changes_never_empty [⟨"A", some 2⟩, ⟨"B", some 5⟩] "B" 0 {} _ reorder_eval_simple

/-! ## C2 and C5: the undefined-order-neighbor hole -/

/-- The failing input shared by C2 and C5: `[{A,1},{C,5},{B,absent}]`,
move `C` to index 2.  The slot's "previous neighbor" in the sorted,
`C`-free list `[A, B]` is `B`, whose order is absent, so
`calculateOrderPosition` sees two absent neighbors and returns the minimum
`1`; `needsRenumbering` skips the spacing check for the absent-order
neighbor and finds nothing else wrong, so the single-move path emits
`("C", 1)` and splices `C` (order 1) after `B` (order absent) — duplicating
`A`'s order 1 and breaking the sort order of the output. -/
theorem reorder_eval_missing_order :
    reorderItems [⟨"A", some 1⟩, ⟨"C", some 5⟩, ⟨"B", none⟩] "C" 2 {} =
      .ok { changes := [("C", 1)],
            orderedItems := [⟨"A", some 1⟩, ⟨"B", none⟩, ⟨"C", some 1⟩] } := by
  have hs1 : sortItemsByOrder
      [(⟨"A", some 1⟩ : OrderableItem), ⟨"C", some 5⟩, ⟨"B", none⟩] =
      [⟨"A", some 1⟩, ⟨"C", some 5⟩, ⟨"B", none⟩] := sortItemsByOrder_of_sorted (by decide)
  have hs2 : sortItemsByOrder [(⟨"A", some 1⟩ : OrderableItem), ⟨"B", none⟩] =
      [⟨"A", some 1⟩, ⟨"B", none⟩] := sortItemsByOrder_of_sorted (by decide)
  have hb1 : (("A" : String) == "C") = false := by decide
  have hb2 : (("C" : String) == "C") = true := by decide
  have hb3 : (("B" : String) == "C") = false := by decide
  norm_num +decide [reorderItems, computedNewOrder, itemsWithoutMovedOf, needsRenumbering,
    hasInvalidOrderValues, calculateOrderPosition, truthy, mergeConfig, hs1, hs2,
    hb1, hb2, hb3, List.find?, List.filter]

/-- C2 fails on the code (code bug): on `[{A,1},{C,5},{B,absent}]`, moving
`C` to index 2 with the default configuration raises no error and returns
`orderedItems` in which `A` and `C` both carry the defined position `1` —
the defined positions of the output are not pairwise distinct, against the
module's own promise to keep duplicate orders cleaned up. -/
theorem C2_failing_input_duplicate_positions :
    reorderItems [⟨"A", some 1⟩, ⟨"C", some 5⟩, ⟨"B", none⟩] "C" 2 {} =
        .ok { changes := [("C", 1)],
              orderedItems := [⟨"A", some 1⟩, ⟨"B", none⟩, ⟨"C", some 1⟩] } ∧
      ¬ ([(⟨"A", some 1⟩ : OrderableItem), ⟨"B", none⟩,
          ⟨"C", some 1⟩].filterMap (·.order)).Nodup :=
  ⟨reorder_eval_missing_order, by decide⟩

/-- C5 fails on the code (code bug): on the same invocation the returned
`orderedItems` is `[A(1), B(absent), C(1)]` — an entity with a defined
position (`C`) is placed after an entity with an absent position (`B`), so
the output is not the ascending, absent-last sequence the result contract
promises. -/
theorem C5_failing_input_not_sorted :
    reorderItems [⟨"A", some 1⟩, ⟨"C", some 5⟩, ⟨"B", none⟩] "C" 2 {} =
        .ok { changes := [("C", 1)],
              orderedItems := [⟨"A", some 1⟩, ⟨"B", none⟩, ⟨"C", some 1⟩] } ∧
      ¬ List.Pairwise (fun a b => a.order = none → b.order = none)
        [(⟨"A", some 1⟩ : OrderableItem), ⟨"B", none⟩, ⟨"C", some 1⟩] :=
  ⟨reorder_eval_missing_order, by decide⟩
